import Mathlib

/-!
Verification of the Flag Registry & Rule Synthesis subsystem of the
`mcp-flag-sweeper` server (`src/server.py`).

The Python source is shallowly embedded: each Python function becomes a Lean
function over explicit state.  Python's string operations (`str.split`,
`str.strip`, `str.lower`, `str.startswith`, membership tests) are modelled by
structurally recursive functions over `List Char` so that every definition is
executable by kernel reduction; they agree with CPython on the ASCII inputs
this config format deals in.  The external rewrite engine
(`polyglot_piranha.execute_piranha`) and the filesystem are not part of the
repository, so they enter the model as explicit parameters: an `Engine`
function producing either a list of result summaries or an exception message,
and an `FS` record of the optional contents of the three probed config-file
locations.  The process-wide `FLAGS_CACHE` dict is threaded as an explicit
`Registry` value, and every tool returns its response together with the cache
state it leaves behind.
-/

namespace PiranhaMCP

/-! ### Python string primitives, modelled over `List Char` -/

/-- `str.split(sep)` for a one-character separator: splits on every
occurrence, keeping empty fields, and yields `[""]` on the empty string. -/
def splitCh (c : Char) : List Char → List (List Char)
  | [] => [[]]
  | x :: xs =>
    let r := splitCh c xs
    if x = c then [] :: r
    else match r with
      | [] => [[x]]
      | y :: ys => (x :: y) :: ys

/-- The whitespace characters recognised by `str.strip()` (the ASCII ones,
which are the only ones a flags.md config can realistically contain). -/
def isPySpace (c : Char) : Bool :=
  c = ' ' || c = '\t' || c = '\n' || c = '\r' || c = '\x0b' || c = '\x0c'

/-- Leading-whitespace removal. -/
def stripL (l : List Char) : List Char := l.dropWhile isPySpace

/-- `str.strip()`: drop whitespace from both ends. -/
def stripChars (l : List Char) : List Char := (stripL (stripL l.reverse).reverse)

/-- `str.strip()` on `String`. -/
def pyStrip (s : String) : String := ⟨stripChars s.data⟩

/-- `str.split(c)` on `String` (single-character separator, no maxsplit). -/
def pySplit (c : Char) (s : String) : List String := (splitCh c s.data).map String.mk

/-- `str.split(c, maxsplit)`: only the first `maxsplit` separators split;
the remainder (separators included) becomes the final field.  This is the
semantics of Python's bounded split. -/
def pySplitMax (c : Char) (maxsplit : Nat) (s : String) : List String :=
  let ps := splitCh c s.data
  if ps.length ≤ maxsplit + 1 then ps.map String.mk
  else (ps.take maxsplit).map String.mk ++ [String.mk (List.intercalate [c] (ps.drop maxsplit))]

/-- `str.lower()` (ASCII case folding, as `Char.toLower`). -/
def pyLower (s : String) : String := ⟨s.data.map Char.toLower⟩

/-- `str.startswith(p)`. -/
def pyStartsWith (s p : String) : Bool := p.data.isPrefixOf s.data

/-- `c in s` for a character. -/
def pyContainsChar (s : String) (c : Char) : Bool := s.data.contains c

/-- `needle in haystack` for strings (substring containment), used by the
error handler to recognise tree-sitter query-syntax failures. -/
def pyContainsSub (haystack needle : String) : Bool :=
  decide (needle.data <:+: haystack.data)

/-! ### Data model -/

/-- One value of the `flags` dict produced by `parse_flags_md`: the record
stored under a flag's name.  `replace_with` is an `Option` because a flag
dict handed to `generate_rules_for_flag` may in general lack the key
(`flag_info.get("replace_with", "true")` guards against that); the parser
itself always populates it. -/
structure FlagRecord where
  value : String
  description : String
  replace_with : Option String
  enabled : Bool
deriving Repr, DecidableEq

/-- The `{"flags": ..., "global_patterns": ...}` shape returned by
`parse_flags_md` and stored in `FLAGS_CACHE`.  The Python dict of flags is
modelled as an insertion-ordered association list with unique keys. -/
structure Registry where
  flags : List (String × FlagRecord)
  global_patterns : List String
deriving Repr, DecidableEq

/-- `flags[name] = rec` on an insertion-ordered dict: overwrite in place if
the key exists, append otherwise. -/
def insertFlag (k : String) (v : FlagRecord) : List (String × FlagRecord) → List (String × FlagRecord)
  | [] => [(k, v)]
  | (k', v') :: rest => if k' = k then (k, v) :: rest else (k', v') :: insertFlag k v rest

/-- `flags.get(name)` / `name in flags`. -/
def lookupFlag (k : String) (l : List (String × FlagRecord)) : Option FlagRecord :=
  (l.find? (fun p => p.1 == k)).map (fun p => p.2)

/-- The empty `FLAGS_CACHE = {}` the process starts with: no flags, no
patterns (an absent key and an empty value are indistinguishable to every
truthiness test the source performs on the cache). -/
def initialFlagsCache : Registry := ⟨[], []⟩

/-! ### `parse_flags_md` -/

/-- The loop state of `parse_flags_md`: the two section booleans plus the
accumulated flags dict and patterns list. -/
structure ParseState where
  in_functions : Bool
  in_flags : Bool
  flags : List (String × FlagRecord)
  global_patterns : List String
deriving Repr, DecidableEq

/-- The `Functions` line handler: split on commas, strip each field, drop
empties (`[f.strip() for f in line.split(',') if f.strip()]`). -/
def commaSplit (line : String) : List String :=
  ((pySplit ',' line).map pyStrip).filter (fun f => !f.isEmpty)

/-- One iteration of the `for line in lines` loop of `parse_flags_md`. -/
def parseLine (st : ParseState) (rawLine : String) : ParseState :=
  let line := pyStrip rawLine
  if line = "## Functions" then { st with in_functions := true, in_flags := false }
  else if line = "## Flags" then { st with in_functions := false, in_flags := true }
  else if pyStartsWith line "##" then { st with in_functions := false, in_flags := false }
  else if st.in_functions && !line.isEmpty then
    { st with global_patterns := commaSplit line }
  else if st.in_flags && !line.isEmpty && pyContainsChar line ':' then
    let parts := pySplitMax ':' 3 line
    if parts.length ≥ 2 then
      let flag_name := pyStrip ((parts.get? 0).getD "")
      let value := pyStrip ((parts.get? 1).getD "")
      let description := if parts.length > 2 then pyStrip ((parts.get? 2).getD "") else ""
      let replace_with := if parts.length > 3 then pyStrip ((parts.get? 3).getD "") else value
      let record : FlagRecord := ⟨value, description, some replace_with, pyLower value == "true"⟩
      { st with flags := insertFlag flag_name record st.flags }
    else st
  else st

/-- `parse_flags_md(content)`: split on newlines and fold the line handler
from the empty state. -/
def parse_flags_md (content : String) : Registry :=
  let final := (pySplit '\n' content).foldl parseLine ⟨false, false, [], []⟩
  ⟨final.flags, final.global_patterns⟩

/-- `parse_flags_md` with Python's partial operations made explicit: every
list indexing (`parts[0]`, `parts[1]`, `parts[2]`, `parts[3]`) is performed
through `List.get?` and an out-of-range access surfaces as an
`Except.error` — the event that would raise `IndexError` in CPython.  Used
to state that the parser never raises. -/
def parseLineChecked (st : ParseState) (rawLine : String) : Except String ParseState :=
  let line := pyStrip rawLine
  if line = "## Functions" then .ok { st with in_functions := true, in_flags := false }
  else if line = "## Flags" then .ok { st with in_functions := false, in_flags := true }
  else if pyStartsWith line "##" then .ok { st with in_functions := false, in_flags := false }
  else if st.in_functions && !line.isEmpty then
    .ok { st with global_patterns := commaSplit line }
  else if st.in_flags && !line.isEmpty && pyContainsChar line ':' then
    let parts := pySplitMax ':' 3 line
    if parts.length ≥ 2 then
      match parts.get? 0, parts.get? 1 with
      | some p0, some p1 =>
        let flag_name := pyStrip p0
        let value := pyStrip p1
        match (if parts.length > 2 then (parts.get? 2).map pyStrip else some "") with
        | none => .error "IndexError"
        | some description =>
          match (if parts.length > 3 then (parts.get? 3).map pyStrip else some value) with
          | none => .error "IndexError"
          | some replace_with =>
            let record : FlagRecord := ⟨value, description, some replace_with, pyLower value == "true"⟩
            .ok { st with flags := insertFlag flag_name record st.flags }
      | _, _ => .error "IndexError"
    else .ok st
  else .ok st

/-- The checked parser: the fold of `parseLineChecked` over the lines. -/
def parse_flags_md_checked (content : String) : Except String Registry := do
  let final ← (pySplit '\n' content).foldlM parseLineChecked ⟨false, false, [], []⟩
  pure ⟨final.flags, final.global_patterns⟩

/-! ### `generate_rules_for_flag` -/

/-- A Piranha rule dictionary as built by the Python code: plain dict, every
key optional (`none` models an absent key). -/
structure RuleDict where
  name : Option String
  query : Option String
  is_seed_rule : Option Bool
  replace_node : Option String
  replace : Option String
deriving Repr, DecidableEq

/-- The `patterns` list built by the `for function_name in global_patterns`
loop: for each catalog entry, the four call-site shape templates, in source
order (single argument, flag first, flag last, flag in the middle). -/
def shapeTexts (flag_name : String) : List String → List String
  | [] => []
  | function_name :: rest =>
    (function_name ++ "(\"" ++ flag_name ++ "\")") ::
    (function_name ++ "(\"" ++ flag_name ++ "\", $args)") ::
    (function_name ++ "($args, \"" ++ flag_name ++ "\")") ::
    (function_name ++ "($args, \"" ++ flag_name ++ "\", $more_args)") ::
    shapeTexts flag_name rest

/-- The `for i, pattern in enumerate(patterns)` loop: one rule dict per
shape, the running index `i` threaded explicitly. -/
def rulesFrom (flag_name replace_value : String) : Nat → List String → List RuleDict
  | _, [] => []
  | i, pattern :: rest =>
    { name := some ("replace_" ++ flag_name ++ "_" ++ Nat.repr i),
      query := some ("cs " ++ pattern),
      is_seed_rule := some true,
      replace_node := some "*",
      replace := some replace_value } :: rulesFrom flag_name replace_value (i + 1) rest

/-- `generate_rules_for_flag(flag_name, flag_info, language)`.  The Python
body reads the pattern catalog from the global `FLAGS_CACHE`; here that
catalog is the explicit `global_patterns` argument (the caller passes the
cache's patterns).  `FLAGS_CACHE.get("global_patterns")` is falsy exactly
when the list is empty, which the `isEmpty` test captures. -/
def generate_rules_for_flag (flag_name : String) (flag_info : FlagRecord)
    (language : String) (global_patterns : List String) : List RuleDict :=
  let replace_value :=
    if flag_info.enabled then flag_info.replace_with.getD "true" else "false"
  if global_patterns.isEmpty then []
  else rulesFrom flag_name replace_value 0 (shapeTexts flag_name global_patterns)

/-! ### Rule/edge normalization and the external engine -/

/-- The argument record of a constructed `polyglot_piranha.Rule`: the fields
`apply_rewrite` always supplies, with `replace_node` carried through only
when the incoming dict had the key. -/
structure Rule where
  name : String
  query : String
  is_seed_rule : Bool
  replace_node : Option String
  replace : String
deriving Repr, DecidableEq

/-- Lines 96-110 of the source: defaults `name="unnamed_rule"`, `query=""`,
`is_seed_rule=False`, `replace=""`; `replace_node` only if present (both
branches of the `if "replace_node" in r` fill `replace` identically). -/
def normalizeRule (r : RuleDict) : Rule :=
  { name := r.name.getD "unnamed_rule",
    query := r.query.getD "",
    is_seed_rule := r.is_seed_rule.getD false,
    replace_node := r.replace_node,
    replace := r.replace.getD "" }

/-- An edge dictionary as supplied by the caller (every key optional). -/
structure EdgeDict where
  from_rule : Option String
  «to» : Option String
  scope : Option String
deriving Repr, DecidableEq

/-- The argument record of a constructed `OutgoingEdges`. -/
structure OutgoingEdges where
  from_rule : String
  «to» : String
  scope : String
deriving Repr, DecidableEq

/-- Edge normalization: defaults `from_rule=""`, `to=""`, `scope="parent"`. -/
def normalizeEdge (e : EdgeDict) : OutgoingEdges :=
  ⟨e.from_rule.getD "", e.«to».getD "", e.scope.getD "parent"⟩

/-- Outcome of one `execute_piranha` call: the list of summary contents on
success (`summaries[i].content`), or the text of the raised exception. -/
inductive EngineResult where
  | ok (summaries : List String)
  | err (msg : String)
deriving Repr, DecidableEq

/-- The external engine, abstracted: code snippet, language, rule graph in,
`EngineResult` out. -/
def Engine : Type := String → String → List Rule → List OutgoingEdges → EngineResult

/-! ### `apply_rewrite` -/

/-- The response dict of `apply_rewrite`; `none` models an absent key. -/
structure RewriteResponse where
  transformed_code : Option String := none
  error : Option String := none
  message : Option String := none
  debug : Option String := none
  suggestion : Option String := none
deriving Repr, DecidableEq

/-- The filesystem as `apply_rewrite` probes it: the contents of `flags.md`
in the current working directory, its parent, and the hardcoded project
path, each `none` when the file does not exist there. -/
structure FS where
  cwdFile : Option String
  parentFile : Option String
  projectFile : Option String
deriving Repr, DecidableEq

/-- The probe order of lines 63-71: first existing candidate wins. -/
def FS.probe (fs : FS) : Option String :=
  (fs.cwdFile.orElse fun _ => fs.parentFile).orElse fun _ => fs.projectFile

/-- Python truthiness of an optional string argument (`if flag_name:`):
absent and empty are both falsy. -/
def strTruthy : Option String → Bool
  | none => false
  | some s => !s.isEmpty

/-- `", "`-joined flag names, standing in for Python's
`list(FLAGS_CACHE['flags'].keys())` rendering inside the flag-not-found
message (the claims never inspect that message's text). -/
def joinNames (l : List String) : String := String.intercalate ", " l

/-- Outcome of the rule-resolution phase of `apply_rewrite` (lines 54-92):
either an early `return` with a response (and the cache as the branch left
it), or a resolved rule list to hand to the engine, with the edge list still
optional because the supplied-rules branch leaves `edges = None` untouched. -/
inductive Resolved where
  | early (resp : RewriteResponse) (cache : Registry)
  | run (rules : List RuleDict) (edges : Option (List EdgeDict)) (cache : Registry)
deriving Repr, DecidableEq

/-- The `elif rules is None` / supplied-rules tail of the resolution chain:
with no (truthy) flag name, a `None` rules argument becomes `[]` and a
`None` edges argument becomes `[]` (`edges or []`); supplied rules pass
through with edges left as given. -/
def resolveNoFlag (cache : Registry) (rules? : Option (List RuleDict))
    (edges? : Option (List EdgeDict)) : Resolved :=
  match rules? with
  | none => .run [] (some (edges?.getD [])) cache
  | some rs => .run rs edges? cache

/-- Lines 54-92 of `apply_rewrite`: the cache-hit branch, the load-and-look
branch with its three early returns, and the no-flag branches.  The Python
cache-hit test `FLAGS_CACHE.get("flags") and flag_name in FLAGS_CACHE["flags"]`
is exactly a successful lookup (a lookup can only succeed in a non-empty
dict).  File reads are modelled as total: a probed location either yields
its contents or does not exist. -/
def resolveRules (fs : FS) (cache : Registry) (code language : String)
    (rules? : Option (List RuleDict)) (edges? : Option (List EdgeDict))
    (flag_name? : Option String) : Resolved :=
  match flag_name? with
  | none => resolveNoFlag cache rules? edges?
  | some flag_name =>
    if flag_name.isEmpty then resolveNoFlag cache rules? edges?
    else
      match lookupFlag flag_name cache.flags with
      | some flag_info =>
        .run (generate_rules_for_flag flag_name flag_info language cache.global_patterns)
          (some []) cache
      | none =>
        match fs.probe with
        | some content =>
          let parsed := parse_flags_md content
          let cache2 : Registry := ⟨parsed.flags, parsed.global_patterns⟩
          match lookupFlag flag_name parsed.flags with
          | some flag_info =>
            let rules := generate_rules_for_flag flag_name flag_info language cache2.global_patterns
            .early { debug := some ("Loaded flag " ++ flag_name ++ ", generated " ++
                       Nat.repr rules.length ++ " rules"),
                     transformed_code := some code } cache2
          | none =>
            .early { error := some ("Flag " ++ flag_name ++ " not found in flags.md. " ++
                       "Available flags: " ++ joinNames (parsed.flags.map Prod.fst)),
                     transformed_code := some code } cache2
        | none =>
          .early { error := some "flags.md not found in current directory",
                   transformed_code := some code } cache

/-- The `except Exception` handler of lines 133-142: a tree-sitter
query-syntax message gets a suggestion, anything else a generic failure.
(The source's suggestion text quotes a sample query; the quotes are dropped
here, the claims only test the field's presence.) -/
def handleEngineError (code error_msg : String) : RewriteResponse :=
  if pyContainsSub error_msg "Cannot parse the tree-sitter query" then
    { error := some ("Invalid tree-sitter query syntax: " ++ error_msg ++
        ". Please check the Piranha documentation for correct query syntax."),
      transformed_code := some code,
      suggestion := some ("Try using simpler queries like if_stmt or check the " ++
        "Piranha examples for proper syntax.") }
  else
    { error := some ("Piranha execution failed: " ++ error_msg),
      transformed_code := some code }

/-- Lines 94-142: normalize the resolved rules and edges, call the engine,
and map its outcome to a response. -/
def runEngine (engine : Engine) (code language : String)
    (rules : List RuleDict) (edges : List EdgeDict) : RewriteResponse :=
  let rule_objs := rules.map normalizeRule
  let edge_objs := edges.map normalizeEdge
  match engine code language rule_objs edge_objs with
  | .ok (s :: _) => { transformed_code := some s }
  | .ok [] =>
    { transformed_code := some code,
      message := some "No transformations applied",
      debug := some ("Generated " ++ Nat.repr rules.length ++ " rules") }
  | .err msg => handleEngineError code msg

/-- The message of the `TypeError` CPython raises when the supplied-rules
branch leaves `edges = None` and line 113 iterates it; it reaches the
generic `except` handler like any other exception. -/
def noneIterableMsg : String := "NoneType object is not iterable"

/-- `apply_rewrite(code, language, rules, edges, flag_name)`: resolution,
then the engine round (or the early return).  Returns the response together
with the `FLAGS_CACHE` value left behind. -/
def apply_rewrite (engine : Engine) (fs : FS) (cache : Registry)
    (code language : String)
    (rules? : Option (List RuleDict)) (edges? : Option (List EdgeDict))
    (flag_name? : Option String) : RewriteResponse × Registry :=
  match resolveRules fs cache code language rules? edges? flag_name? with
  | .early resp cache2 => (resp, cache2)
  | .run rules edgesO cache2 =>
    match edgesO with
    | some edges => (runEngine engine code language rules edges, cache2)
    | none => (handleEngineError code noneIterableMsg, cache2)

/-! ### `list_flags` -/

/-- The response dict of `list_flags`. -/
structure ListFlagsResponse where
  flags : List String := []
  flag_details : Option (List (String × FlagRecord)) := none
  global_patterns : Option (List String) := none
  source_file : Option String := none
  message : Option String := none
  error : Option String := none
  suggestion : Option String := none
deriving Repr, DecidableEq

/-- `list_flags(working_directory)`: `file` is the contents of
`working_directory/flags.md` when it exists.  On success the parse result
wholesale replaces the cache. -/
def list_flags (file : Option String) (working_directory : String)
    (cache : Registry) : ListFlagsResponse × Registry :=
  match file with
  | none =>
    ({ error := some ("flags.md not found in " ++ working_directory),
       flags := [],
       suggestion := some "Create a flags.md file with flag definitions" }, cache)
  | some content =>
    let parsed := parse_flags_md content
    let cache2 : Registry := ⟨parsed.flags, parsed.global_patterns⟩
    ({ flags := parsed.flags.map Prod.fst,
       flag_details := some parsed.flags,
       global_patterns := some parsed.global_patterns,
       source_file := some (working_directory ++ "/flags.md"),
       message := some ("Loaded " ++ Nat.repr parsed.flags.length ++ " flags and " ++
         Nat.repr parsed.global_patterns.length ++ " global patterns from " ++
         working_directory ++ "/flags.md") }, cache2)

/-! ### Decimal rendering: `Nat.repr` is injective

Rule names embed the running index via Python f-string interpolation, i.e. decimal
rendering, which the embedding writes as `Nat.repr`.  Uniqueness of rule
names therefore needs injectivity of `Nat.repr`, proved here through a
structurally transparent digit-list function. -/

/-- Big-endian decimal digit characters of `n`. -/
def natDigits (n : Nat) : List Char :=
  if n < 10 then [Nat.digitChar n]
  else natDigits (n / 10) ++ [Nat.digitChar (n % 10)]
decreasing_by exact Nat.div_lt_self (by omega) (by omega)

theorem natDigits_small {n : Nat} (h : n < 10) : natDigits n = [Nat.digitChar n] := by
  conv_lhs => rw [natDigits]
  rw [if_pos h]

theorem natDigits_large {n : Nat} (h : ¬ n < 10) :
    natDigits n = natDigits (n / 10) ++ [Nat.digitChar (n % 10)] := by
  conv_lhs => rw [natDigits]
  rw [if_neg h]

theorem toDigitsCore_eq_natDigits :
    ∀ (fuel n : Nat) (acc : List Char), n < fuel →
      Nat.toDigitsCore 10 fuel n acc = natDigits n ++ acc := by
  intro fuel
  induction fuel with
  | zero => intro n acc h; exact absurd h (Nat.not_lt_zero n)
  | succ f ih =>
    intro n acc h
    rw [Nat.toDigitsCore]
    by_cases h0 : n / 10 = 0
    · have hn : n < 10 := by omega
      rw [if_pos h0, natDigits_small hn, Nat.mod_eq_of_lt hn]
      rfl
    · have hlt : n / 10 < f := by
        have : n / 10 < n := Nat.div_lt_self (by omega) (by omega)
        omega
      rw [if_neg h0, ih (n / 10) _ hlt, natDigits_large (by omega : ¬ n < 10),
        List.append_assoc]
      rfl

theorem repr_eq_natDigits (n : Nat) : Nat.repr n = (natDigits n).asString := by
  show (Nat.toDigits 10 n).asString = _
  rw [Nat.toDigits, toDigitsCore_eq_natDigits (n + 1) n [] (Nat.lt_succ_self n),
    List.append_nil]

theorem digitChar_inj_lt : ∀ a < 10, ∀ b < 10,
    Nat.digitChar a = Nat.digitChar b → a = b := by decide

theorem natDigits_length_pos (n : Nat) : 0 < (natDigits n).length := by
  rw [natDigits]
  split <;> simp

theorem natDigits_inj : ∀ m n, natDigits m = natDigits n → m = n := by
  intro m
  induction m using Nat.strong_induction_on with
  | _ m ih =>
    intro n h
    by_cases hm : m < 10 <;> by_cases hn : n < 10
    · rw [natDigits_small hm, natDigits_small hn] at h
      simp only [List.cons.injEq, and_true] at h
      exact digitChar_inj_lt m hm n hn h
    · exfalso
      rw [natDigits_small hm, natDigits_large hn] at h
      have hl := congrArg List.length h
      have hp := natDigits_length_pos (n / 10)
      rw [List.length_append] at hl
      simp only [List.length_cons, List.length_nil] at hl
      omega
    · exfalso
      rw [natDigits_large hm, natDigits_small hn] at h
      have hl := congrArg List.length h
      have hp := natDigits_length_pos (m / 10)
      rw [List.length_append] at hl
      simp only [List.length_cons, List.length_nil] at hl
      omega
    · rw [natDigits_large hm, natDigits_large hn] at h
      obtain ⟨h1, h2⟩ := List.append_inj' h (by simp)
      have e1 : m / 10 = n / 10 :=
        ih (m / 10) (Nat.div_lt_self (by omega) (by omega)) (n / 10) h1
      have e2 : m % 10 = n % 10 := by
        apply digitChar_inj_lt _ (Nat.mod_lt m (by omega)) _ (Nat.mod_lt n (by omega))
        simpa using h2
      omega

theorem nat_repr_inj {m n : Nat} (h : Nat.repr m = Nat.repr n) : m = n := by
  rw [repr_eq_natDigits, repr_eq_natDigits] at h
  apply natDigits_inj
  simpa [List.asString] using congrArg String.data h

/-- Appending to a common left part is cancellative on strings. -/
theorem str_append_cancel_left {p a b : String} (h : p ++ a = p ++ b) : a = b := by
  have h2 := congrArg String.data h
  rw [String.data_append, String.data_append] at h2
  exact String.ext (List.append_cancel_left h2)

/-! ### Structural lemmas about rule synthesis -/

theorem shapeTexts_length (flag_name : String) :
    ∀ pats : List String, (shapeTexts flag_name pats).length = 4 * pats.length := by
  intro pats
  induction pats with
  | nil => rfl
  | cons p ps ih =>
    rw [shapeTexts]
    simp only [List.length_cons, ih]
    omega

theorem rulesFrom_length (flag_name replace_value : String) :
    ∀ (l : List String) (k : Nat), (rulesFrom flag_name replace_value k l).length = l.length := by
  intro l
  induction l with
  | nil => intro k; rfl
  | cons p ps ih =>
    intro k
    rw [rulesFrom]
    simp only [List.length_cons, ih]

/-- What the `i`-th synthesized rule dict looks like, with the starting
index `k` of the enumeration made explicit. -/
theorem rulesFrom_get? (flag_name replace_value : String) :
    ∀ (l : List String) (k i : Nat),
      (rulesFrom flag_name replace_value k l).get? i =
        (l.get? i).map (fun pattern =>
          ⟨some ("replace_" ++ flag_name ++ "_" ++ Nat.repr (k + i)),
           some ("cs " ++ pattern), some true, some "*", some replace_value⟩) := by
  intro l
  induction l with
  | nil => intro k i; rfl
  | cons p ps ih =>
    intro k i
    cases i with
    | zero => rfl
    | succ j =>
      rw [rulesFrom]
      show (rulesFrom flag_name replace_value (k + 1) ps).get? j = _
      rw [ih (k + 1) j]
      have : k + 1 + j = k + (j + 1) := by omega
      rw [this]
      rfl

/-! ### The checked parser never fails -/

theorem parseLineChecked_ok (st : ParseState) (raw : String) :
    parseLineChecked st raw = .ok (parseLine st raw) := by
  unfold parseLineChecked parseLine
  dsimp only
  split
  · rfl
  split
  · rfl
  split
  · rfl
  split
  · rfl
  split
  · split
    · cases g0 : (pySplitMax ':' 3 (pyStrip raw)).get? 0 with
      | none => exact absurd (List.get?_eq_none.mp g0) (by omega)
      | some p0 =>
        cases g1 : (pySplitMax ':' 3 (pyStrip raw)).get? 1 with
        | none => exact absurd (List.get?_eq_none.mp g1) (by omega)
        | some p1 =>
          by_cases h7 : (pySplitMax ':' 3 (pyStrip raw)).length > 2
          · cases g2 : (pySplitMax ':' 3 (pyStrip raw)).get? 2 with
            | none => exact absurd (List.get?_eq_none.mp g2) (by omega)
            | some p2 =>
              by_cases h8 : (pySplitMax ':' 3 (pyStrip raw)).length > 3
              · cases g3 : (pySplitMax ':' 3 (pyStrip raw)).get? 3 with
                | none => exact absurd (List.get?_eq_none.mp g3) (by omega)
                | some p3 => simp [g0, g1, g2, g3, h7, h8]
              · simp [g0, g1, g2, h7, h8]
          · have h8 : ¬ (pySplitMax ':' 3 (pyStrip raw)).length > 3 := by omega
            simp [g0, g1, h7, h8]
    · rfl
  · rfl

theorem foldlM_parseLineChecked (lines : List String) :
    ∀ st : ParseState,
      lines.foldlM parseLineChecked st = .ok (lines.foldl parseLine st) := by
  induction lines with
  | nil => intro st; rfl
  | cons raw rest ih =>
    intro st
    rw [List.foldlM_cons, parseLineChecked_ok]
    show (rest.foldlM parseLineChecked (parseLine st raw)) = _
    rw [ih (parseLine st raw), List.foldl_cons]

/-! ### The last-line view of the Functions section (for the corrected C2) -/

/-- The last non-empty content line seen while inside a `## Functions`
section, written directly from the spec sentence being tested: walk the
lines with the same section-state machine as the parser and remember the
most recent non-empty Functions-section line. -/
def lastFnLineAux : List String → Bool → Option String → Option String
  | [], _, acc => acc
  | raw :: rest, inF, acc =>
    let line := pyStrip raw
    if line = "## Functions" then lastFnLineAux rest true acc
    else if line = "## Flags" then lastFnLineAux rest false acc
    else if pyStartsWith line "##" then lastFnLineAux rest false acc
    else if inF && !line.isEmpty then lastFnLineAux rest inF (some line)
    else lastFnLineAux rest inF acc

/-- The last non-empty line under `## Functions` in a document. -/
def lastFunctionsLine (content : String) : Option String :=
  lastFnLineAux (pySplit '\n' content) false none

/-- The accumulator of `lastFnLineAux` only matters when no later
Functions-section line exists. -/
theorem lastFnLineAux_acc :
    ∀ (lines : List String) (inF : Bool) (a : Option String),
      lastFnLineAux lines inF a =
        ((lastFnLineAux lines inF none).orElse fun _ => a) := by
  intro lines
  induction lines with
  | nil => intro inF a; cases a <;> rfl
  | cons raw rest ih =>
    intro inF a
    simp only [lastFnLineAux]
    by_cases h1 : pyStrip raw = "## Functions"
    · simp only [h1, ite_true]
      exact ih true a
    by_cases h2 : pyStrip raw = "## Flags"
    · simp only [h1, h2, ite_true, ite_false]
      exact ih false a
    by_cases h3 : pyStartsWith (pyStrip raw) "##" = true
    · simp only [h1, h2, h3, ite_true, ite_false]
      exact ih false a
    by_cases h4 : (inF && !(pyStrip raw).isEmpty) = true
    · simp only [h1, h2, h3, h4, ite_true, ite_false]
      rw [ih inF (some (pyStrip raw))]
      cases lastFnLineAux rest inF none <;> rfl
    · simp only [h1, h2, h3, h4, ite_true, ite_false]
      exact ih inF a

/-- A line that is no section header and no Functions-section content line
leaves `global_patterns` and `in_functions` untouched (it can only add a
flag or do nothing). -/
theorem parseLine_preserves (st : ParseState) (raw : String)
    (h1 : ¬ pyStrip raw = "## Functions") (h2 : ¬ pyStrip raw = "## Flags")
    (h3 : ¬ pyStartsWith (pyStrip raw) "##" = true)
    (h4 : ¬ (st.in_functions && !(pyStrip raw).isEmpty) = true) :
    (parseLine st raw).global_patterns = st.global_patterns ∧
      (parseLine st raw).in_functions = st.in_functions := by
  unfold parseLine
  dsimp only
  rw [if_neg h1, if_neg h2, if_neg h3, if_neg h4]
  split
  · split
    · exact ⟨rfl, rfl⟩
    · exact ⟨rfl, rfl⟩
  · exact ⟨rfl, rfl⟩

theorem parseLine_fn_header (st : ParseState) (raw : String)
    (h1 : pyStrip raw = "## Functions") :
    parseLine st raw = { st with in_functions := true, in_flags := false } := by
  unfold parseLine
  dsimp only
  rw [if_pos h1]

theorem parseLine_flags_header (st : ParseState) (raw : String)
    (h1 : ¬ pyStrip raw = "## Functions") (h2 : pyStrip raw = "## Flags") :
    parseLine st raw = { st with in_functions := false, in_flags := true } := by
  unfold parseLine
  dsimp only
  rw [if_neg h1, if_pos h2]

theorem parseLine_other_header (st : ParseState) (raw : String)
    (h1 : ¬ pyStrip raw = "## Functions") (h2 : ¬ pyStrip raw = "## Flags")
    (h3 : pyStartsWith (pyStrip raw) "##" = true) :
    parseLine st raw = { st with in_functions := false, in_flags := false } := by
  unfold parseLine
  dsimp only
  rw [if_neg h1, if_neg h2, if_pos h3]

theorem parseLine_fn_content (st : ParseState) (raw : String)
    (h1 : ¬ pyStrip raw = "## Functions") (h2 : ¬ pyStrip raw = "## Flags")
    (h3 : ¬ pyStartsWith (pyStrip raw) "##" = true)
    (h4 : (st.in_functions && !(pyStrip raw).isEmpty) = true) :
    parseLine st raw = { st with global_patterns := commaSplit (pyStrip raw) } := by
  unfold parseLine
  dsimp only
  rw [if_neg h1, if_neg h2, if_neg h3, if_pos h4]

theorem lastFnLineAux_cons_fn_header (raw : String) (rest : List String)
    (inF : Bool) (acc : Option String) (h1 : pyStrip raw = "## Functions") :
    lastFnLineAux (raw :: rest) inF acc = lastFnLineAux rest true acc := by
  simp only [lastFnLineAux]
  rw [if_pos h1]

theorem lastFnLineAux_cons_flags_header (raw : String) (rest : List String)
    (inF : Bool) (acc : Option String)
    (h1 : ¬ pyStrip raw = "## Functions") (h2 : pyStrip raw = "## Flags") :
    lastFnLineAux (raw :: rest) inF acc = lastFnLineAux rest false acc := by
  simp only [lastFnLineAux]
  rw [if_neg h1, if_pos h2]

theorem lastFnLineAux_cons_other_header (raw : String) (rest : List String)
    (inF : Bool) (acc : Option String)
    (h1 : ¬ pyStrip raw = "## Functions") (h2 : ¬ pyStrip raw = "## Flags")
    (h3 : pyStartsWith (pyStrip raw) "##" = true) :
    lastFnLineAux (raw :: rest) inF acc = lastFnLineAux rest false acc := by
  simp only [lastFnLineAux]
  rw [if_neg h1, if_neg h2, if_pos h3]

theorem lastFnLineAux_cons_content (raw : String) (rest : List String)
    (inF : Bool) (acc : Option String)
    (h1 : ¬ pyStrip raw = "## Functions") (h2 : ¬ pyStrip raw = "## Flags")
    (h3 : ¬ pyStartsWith (pyStrip raw) "##" = true)
    (h4 : (inF && !(pyStrip raw).isEmpty) = true) :
    lastFnLineAux (raw :: rest) inF acc = lastFnLineAux rest inF (some (pyStrip raw)) := by
  simp only [lastFnLineAux]
  rw [if_neg h1, if_neg h2, if_neg h3, if_pos h4]

theorem lastFnLineAux_cons_other (raw : String) (rest : List String)
    (inF : Bool) (acc : Option String)
    (h1 : ¬ pyStrip raw = "## Functions") (h2 : ¬ pyStrip raw = "## Flags")
    (h3 : ¬ pyStartsWith (pyStrip raw) "##" = true)
    (h4 : ¬ (inF && !(pyStrip raw).isEmpty) = true) :
    lastFnLineAux (raw :: rest) inF acc = lastFnLineAux rest inF acc := by
  simp only [lastFnLineAux]
  rw [if_neg h1, if_neg h2, if_neg h3, if_neg h4]

/-- The pattern catalog computed by the parser loop is the comma-split of
the most recent non-empty Functions-section line (with the state's
current catalog as fallback). -/
theorem foldl_parseLine_patterns :
    ∀ (lines : List String) (st : ParseState),
      (lines.foldl parseLine st).global_patterns =
        (match lastFnLineAux lines st.in_functions none with
          | some l => commaSplit l
          | none => st.global_patterns) := by
  intro lines
  induction lines with
  | nil => intro st; rfl
  | cons raw rest ih =>
    intro st
    rw [List.foldl_cons, ih (parseLine st raw)]
    by_cases h1 : pyStrip raw = "## Functions"
    · rw [parseLine_fn_header st raw h1, lastFnLineAux_cons_fn_header raw rest _ _ h1]
    by_cases h2 : pyStrip raw = "## Flags"
    · rw [parseLine_flags_header st raw h1 h2,
        lastFnLineAux_cons_flags_header raw rest _ _ h1 h2]
    by_cases h3 : pyStartsWith (pyStrip raw) "##" = true
    · rw [parseLine_other_header st raw h1 h2 h3,
        lastFnLineAux_cons_other_header raw rest _ _ h1 h2 h3]
    by_cases h4 : (st.in_functions && !(pyStrip raw).isEmpty) = true
    · rw [parseLine_fn_content st raw h1 h2 h3 h4,
        lastFnLineAux_cons_content raw rest _ _ h1 h2 h3 h4,
        lastFnLineAux_acc rest st.in_functions (some (pyStrip raw))]
      cases lastFnLineAux rest st.in_functions none <;> rfl
    · obtain ⟨hg, hf⟩ := parseLine_preserves st raw h1 h2 h3 h4
      rw [hg, hf, lastFnLineAux_cons_other raw rest _ _ h1 h2 h3 h4]

/-- Every rule emitted by the enumeration loop carries the one
`replace_value` computed before the loop. -/
theorem rulesFrom_replace (flag_name replace_value : String) :
    ∀ (l : List String) (k : Nat) (r : RuleDict),
      r ∈ rulesFrom flag_name replace_value k l → r.replace = some replace_value := by
  intro l
  induction l with
  | nil => intro k r h; cases h
  | cons p ps ih =>
    intro k r h
    rw [rulesFrom] at h
    rcases List.mem_cons.mp h with h | h
    · rw [h]
    · exact ih (k + 1) r h

/-- Claim C2, counterexample: a document whose `## Functions` section has
two non-empty lines `a,b` and `c,d` parses to the catalog `["c", "d"]` —
the comma-split of the second line, not of the first as the claim states. -/
theorem C2_counterexample :
    (parse_flags_md "## Functions\na,b\nc,d").global_patterns ≠ ["a", "b"] ∧
      (parse_flags_md "## Functions\na,b\nc,d").global_patterns = ["c", "d"] := by
  constructor
  · decide
  · decide

/-- Claim C2 (amended): for every input document, the resulting
PatternCatalog equals the comma-split (fields stripped, empty fields
dropped) of the LAST non-empty line under the `## Functions` section, or
is empty when no such line exists; any EARLIER non-empty lines under that
section have no effect on the result. -/
theorem C2_last_functions_line_wins (content : String) :
    (parse_flags_md content).global_patterns =
      (match lastFunctionsLine content with
        | some l => commaSplit l
        | none => []) := by
  unfold parse_flags_md lastFunctionsLine
  dsimp only
  rw [foldl_parseLine_patterns (pySplit '\n' content) ⟨false, false, [], []⟩]

/-- Claim C3: for every flag record, language and catalog, every
synthesized rule has its replacement literal equal to the configured
`replace_with` (falling back to `"true"` when the key is absent) when the
flag is enabled, and equal to the literal `"false"` when the flag is
disabled, whatever `replace_with` is configured as. -/
theorem C3_replace_literal (flag_name : String) (flag_info : FlagRecord)
    (language : String) (global_patterns : List String) (r : RuleDict)
    (hmem : r ∈ generate_rules_for_flag flag_name flag_info language global_patterns) :
    (flag_info.enabled = true → r.replace = some (flag_info.replace_with.getD "true")) ∧
      (flag_info.enabled = false → r.replace = some "false") := by
  unfold generate_rules_for_flag at hmem
  dsimp only at hmem
  by_cases he : global_patterns.isEmpty = true
  · rw [if_pos he] at hmem
    cases hmem
  · rw [if_neg he] at hmem
    have hrep := rulesFrom_replace flag_name _ _ 0 r hmem
    constructor
    · intro hE
      rw [hrep, hE]
      simp
    · intro hD
      rw [hrep, hD]
      simp

/-- Witness for C3 at a concrete disabled flag with a configured
`replace_with` of `"X"`: the first synthesized rule still replaces with the
literal `"false"`. -/
theorem C3_witness :
    (⟨some "replace_f_0", some "cs g(\"f\")", some true, some "*", some "false"⟩ :
      RuleDict).replace = some "false" :=
  (C3_replace_literal "f" ⟨"false", "", some "X", false⟩ "go" ["g"]
    ⟨some "replace_f_0", some "cs g(\"f\")", some true, some "*", some "false"⟩
    (by decide)).2 rfl

/-- Claim C4: for a non-empty catalog of size `k` the synthesis returns
exactly `4*k` rules; the `i`-th rule (catalog-then-shape order) is named
`replace_{flagName}_{i}`, its query is `"cs "` followed by the `i`-th shape
text, its `replace_node` is `"*"` and it is a seed rule; the names are
pairwise distinct; and for an empty catalog the result is the empty list. -/
theorem C4_rule_list_shape (flag_name : String) (flag_info : FlagRecord)
    (language : String) (pats : List String) :
    (pats ≠ [] →
      (generate_rules_for_flag flag_name flag_info language pats).length = 4 * pats.length ∧
      (∀ i r,
        (generate_rules_for_flag flag_name flag_info language pats).get? i = some r →
        r.name = some ("replace_" ++ flag_name ++ "_" ++ Nat.repr i) ∧
        r.query = ((shapeTexts flag_name pats).get? i).map (fun s => "cs " ++ s) ∧
        r.replace_node = some "*" ∧ r.is_seed_rule = some true) ∧
      (∀ i j ri rj,
        (generate_rules_for_flag flag_name flag_info language pats).get? i = some ri →
        (generate_rules_for_flag flag_name flag_info language pats).get? j = some rj →
        ri.name = rj.name → i = j)) ∧
    (pats = [] → generate_rules_for_flag flag_name flag_info language pats = []) := by
  constructor
  · intro hne
    have he : ¬ pats.isEmpty = true := by
      cases pats with
      | nil => exact absurd rfl hne
      | cons a l => simp [List.isEmpty]
    have hG : generate_rules_for_flag flag_name flag_info language pats =
        rulesFrom flag_name
          (if flag_info.enabled then flag_info.replace_with.getD "true" else "false")
          0 (shapeTexts flag_name pats) := by
      unfold generate_rules_for_flag
      dsimp only
      rw [if_neg he]
    refine ⟨?_, ?_, ?_⟩
    · rw [hG, rulesFrom_length, shapeTexts_length]
    · intro i r hget
      rw [hG, rulesFrom_get?] at hget
      cases hs : (shapeTexts flag_name pats).get? i with
      | none => rw [hs] at hget; cases hget
      | some pattern =>
        rw [hs] at hget
        injection hget with hr
        subst hr
        refine ⟨?_, ?_, rfl, rfl⟩
        · rw [Nat.zero_add]
        · rfl
    · intro i j ri rj hgi hgj hname
      rw [hG, rulesFrom_get?] at hgi hgj
      cases hsi : (shapeTexts flag_name pats).get? i with
      | none => rw [hsi] at hgi; cases hgi
      | some pi =>
        cases hsj : (shapeTexts flag_name pats).get? j with
        | none => rw [hsj] at hgj; cases hgj
        | some pj =>
          rw [hsi] at hgi
          rw [hsj] at hgj
          injection hgi with hri
          injection hgj with hrj
          subst hri
          subst hrj
          simp only [Option.some.injEq] at hname
          have hrepr : Nat.repr (0 + i) = Nat.repr (0 + j) :=
        str_append_cancel_left hname
          have := nat_repr_inj hrepr
          omega
  · intro h0
    subst h0
    rfl

/-- Witness for C4 at the one-element catalog `["g"]` and the empty
catalog. -/
theorem C4_witness :
    (generate_rules_for_flag "f" ⟨"true", "", some "repl", true⟩ "go" ["g"]).length =
        4 * (["g"] : List String).length ∧
      generate_rules_for_flag "f" ⟨"true", "", some "repl", true⟩ "go" [] = [] :=
  ⟨((C4_rule_list_shape "f" ⟨"true", "", some "repl", true⟩ "go" ["g"]).1
      (by decide)).1,
    (C4_rule_list_shape "f" ⟨"true", "", some "repl", true⟩ "go" []).2 rfl⟩

/-- Claim C10: the document parser is total — on every input string the
checked parser (in which every Python list indexing is made explicit and
an out-of-range access would surface as an error) returns `ok` with
exactly the registry that `parse_flags_md` computes, i.e. a value carrying
the `flags` and `global_patterns` fields; no input makes it raise. -/
theorem C10_parser_total (content : String) :
    parse_flags_md_checked content = Except.ok (parse_flags_md content) := by
  unfold parse_flags_md_checked parse_flags_md
  dsimp only
  rw [foldlM_parseLineChecked]
  rfl

theorem splitCh_length_pos (c : Char) : ∀ l : List Char, 0 < (splitCh c l).length := by
  intro l
  induction l with
  | nil => simp [splitCh]
  | cons x xs ih =>
    simp only [splitCh]
    by_cases hx : x = c
    · rw [if_pos hx]
      simp
    · rw [if_neg hx]
      cases hr : splitCh c xs with
      | nil => simp
      | cons y ys => simp

theorem splitCh_length_ge_two (c : Char) :
    ∀ l : List Char, l.contains c = true → 2 ≤ (splitCh c l).length := by
  intro l
  induction l with
  | nil => intro h; simp at h
  | cons x xs ih =>
    intro h
    simp only [splitCh]
    by_cases hx : x = c
    · rw [if_pos hx]
      have := splitCh_length_pos c xs
      simp only [List.length_cons]
      omega
    · rw [if_neg hx]
      have hxs : xs.contains c = true := by
        rw [List.contains_cons] at h
        rcases Bool.or_eq_true_iff.mp h with h | h
        · exact absurd (beq_iff_eq.mp h).symm hx
        · exact h
      have h2 := ih hxs
      cases hr : splitCh c xs with
      | nil => rw [hr] at h2; simp at h2
      | cons y ys =>
        rw [hr] at h2
        simp only [List.length_cons] at h2 ⊢
        omega

/-- A line containing a colon yields at least two colon-separated fields,
so the `len(parts) >= 2` guard always passes for such lines. -/
theorem pySplitMax_length_ge_two (c : Char) (s : String)
    (h : pyContainsChar s c = true) : 2 ≤ (pySplitMax c 3 s).length := by
  unfold pySplitMax
  dsimp only
  have h2 := splitCh_length_ge_two c s.data h
  split
  · rw [List.length_map]
    exact h2
  · rename_i hlen
    rw [List.length_append, List.length_map, List.length_take]
    simp only [List.length_cons, List.length_nil]
    omega

/-- Claim C5: inside the `## Flags` section, every non-empty non-header
line containing a colon produces a flag record whose `enabled` holds iff
the (stripped) value field lowercases to `"true"`, whose description
defaults to empty when the field is absent and whose `replace_with`
defaults to the value field when absent; a line without a colon is
silently skipped (the state is returned unchanged, no error arises). -/
theorem C5_flags_section_lines (st : ParseState) (raw : String)
    (hfl : st.in_flags = true) (hfn : st.in_functions = false)
    (hhdr : pyStartsWith (pyStrip raw) "##" = false)
    (hne : (pyStrip raw).isEmpty = false) :
    (pyContainsChar (pyStrip raw) ':' = true →
      ∃ rec : FlagRecord,
        parseLine st raw =
          { st with
            flags := insertFlag (pyStrip (((pySplitMax ':' 3 (pyStrip raw)).get? 0).getD "")) rec st.flags } ∧
        rec.value = pyStrip (((pySplitMax ':' 3 (pyStrip raw)).get? 1).getD "") ∧
        (rec.enabled = true ↔ pyLower rec.value = "true") ∧
        ((pySplitMax ':' 3 (pyStrip raw)).length ≤ 2 → rec.description = "") ∧
        ((pySplitMax ':' 3 (pyStrip raw)).length ≤ 3 →
          rec.replace_with = some rec.value)) ∧
    (pyContainsChar (pyStrip raw) ':' = false → parseLine st raw = st) := by
  have h1 : ¬ pyStrip raw = "## Functions" := by
    intro he
    rw [he] at hhdr
    exact absurd hhdr (by decide)
  have h2 : ¬ pyStrip raw = "## Flags" := by
    intro he
    rw [he] at hhdr
    exact absurd hhdr (by decide)
  have h3 : ¬ pyStartsWith (pyStrip raw) "##" = true := by
    rw [hhdr]
    simp
  have h4 : ¬ (st.in_functions && !(pyStrip raw).isEmpty) = true := by
    rw [hfn]
    simp
  constructor
  · intro hc
    have h5 : (st.in_flags && !(pyStrip raw).isEmpty && pyContainsChar (pyStrip raw) ':') = true := by
      rw [hfl, hne, hc]
      rfl
    have hlen := pySplitMax_length_ge_two ':' (pyStrip raw) hc
    refine ⟨⟨pyStrip (((pySplitMax ':' 3 (pyStrip raw)).get? 1).getD ""),
        (if (pySplitMax ':' 3 (pyStrip raw)).length > 2 then
          pyStrip (((pySplitMax ':' 3 (pyStrip raw)).get? 2).getD "") else ""),
        some (if (pySplitMax ':' 3 (pyStrip raw)).length > 3 then
          pyStrip (((pySplitMax ':' 3 (pyStrip raw)).get? 3).getD "")
          else pyStrip (((pySplitMax ':' 3 (pyStrip raw)).get? 1).getD "")),
        (pyLower (pyStrip (((pySplitMax ':' 3 (pyStrip raw)).get? 1).getD "")) == "true")⟩,
      ?_, rfl, ?_, ?_, ?_⟩
    · unfold parseLine
      dsimp only
      rw [if_neg h1, if_neg h2, if_neg h3, if_neg h4, if_pos h5, if_pos hlen]
    · constructor
      · intro hb
        exact beq_iff_eq.mp hb
      · intro hb
        exact beq_iff_eq.mpr hb
    · intro hle
      have hn : ¬ (pySplitMax ':' 3 (pyStrip raw)).length > 2 := by omega
      exact if_neg hn
    · intro hle
      have hn : ¬ (pySplitMax ':' 3 (pyStrip raw)).length > 3 := by omega
      rw [if_neg hn]
  · intro hc
    have h5 : ¬ (st.in_flags && !(pyStrip raw).isEmpty && pyContainsChar (pyStrip raw) ':') = true := by
      rw [hc]
      simp
    unfold parseLine
    dsimp only
    rw [if_neg h1, if_neg h2, if_neg h3, if_neg h4, if_neg h5]

/-- Witness for C5: the line `beta:TRUE` in the Flags section yields a
record with case-insensitive enabled detection and `replace_with`
defaulting to the value field; a colon-free line is skipped. -/
theorem C5_witness :
    (∃ rec : FlagRecord,
      parseLine ⟨false, true, [], []⟩ "beta:TRUE" =
        { in_functions := false, in_flags := true,
          flags := insertFlag "beta" rec [], global_patterns := [] } ∧
      rec.value = "TRUE" ∧
      (rec.enabled = true ↔ pyLower rec.value = "true") ∧
      ((pySplitMax ':' 3 (pyStrip "beta:TRUE")).length ≤ 2 → rec.description = "") ∧
      ((pySplitMax ':' 3 (pyStrip "beta:TRUE")).length ≤ 3 →
        rec.replace_with = some rec.value)) ∧
    parseLine ⟨false, true, [], []⟩ "nocolonhere" = ⟨false, true, [], []⟩ :=
  ⟨(C5_flags_section_lines ⟨false, true, [], []⟩ "beta:TRUE" rfl rfl
      (by decide) (by decide)).1 (by decide),
    (C5_flags_section_lines ⟨false, true, [], []⟩ "nocolonhere" rfl rfl
      (by decide) (by decide)).2 (by decide)⟩

/-- Every early return of the resolution phase carries the original
snippet as `transformed_code` and no `suggestion` key. -/
theorem resolveRules_early_shape (fs : FS) (cache : Registry) (code language : String)
    (rules? : Option (List RuleDict)) (edges? : Option (List EdgeDict))
    (flag_name? : Option String) (resp : RewriteResponse) (cache2 : Registry)
    (h : resolveRules fs cache code language rules? edges? flag_name? = .early resp cache2) :
    resp.transformed_code = some code ∧ resp.suggestion = none := by
  unfold resolveRules at h
  cases flag_name? with
  | none =>
    unfold resolveNoFlag at h
    cases rules? <;> simp at h
  | some flag =>
    dsimp only at h
    by_cases he : flag.isEmpty = true
    · rw [if_pos he] at h
      unfold resolveNoFlag at h
      cases rules? <;> simp at h
    · rw [if_neg he] at h
      cases hl : lookupFlag flag cache.flags with
      | some fi =>
        rw [hl] at h
        simp at h
      | none =>
        rw [hl] at h
        cases hp : fs.probe with
        | some content =>
          rw [hp] at h
          dsimp only at h
          cases hl2 : lookupFlag flag (parse_flags_md content).flags with
          | some fi =>
            rw [hl2] at h
            injection h with hr hc
            subst hr
            exact ⟨rfl, rfl⟩
          | none =>
            rw [hl2] at h
            injection h with hr hc
            subst hr
            exact ⟨rfl, rfl⟩
        | none =>
          rw [hp] at h
          injection h with hr hc
          subst hr
          exact ⟨rfl, rfl⟩

theorem handleEngineError_code (code msg : String) :
    (handleEngineError code msg).transformed_code = some code := by
  unfold handleEngineError
  split <;> rfl

theorem handleEngineError_error_isSome (code msg : String) :
    (handleEngineError code msg).error.isSome = true := by
  unfold handleEngineError
  split <;> rfl

theorem handleEngineError_marker_hit (code msg : String)
    (h : pyContainsSub msg "Cannot parse the tree-sitter query" = true) :
    (handleEngineError code msg).suggestion.isSome = true := by
  unfold handleEngineError
  rw [if_pos h]
  rfl

theorem handleEngineError_generic (code msg : String)
    (h : pyContainsSub msg "Cannot parse the tree-sitter query" = false) :
    (handleEngineError code msg).suggestion = none ∧
      (handleEngineError code msg).error = some ("Piranha execution failed: " ++ msg) := by
  unfold handleEngineError
  rw [if_neg (by rw [h]; simp : ¬ pyContainsSub msg "Cannot parse the tree-sitter query" = true)]
  exact ⟨rfl, rfl⟩

/-- Claim C6: whenever a call reaches the engine and the engine succeeds
with zero result summaries, the response is the original snippet unchanged
plus a message and a diagnostic stating how many rules were attempted, and
no error key; with at least one summary, the response is exactly the first
summary's content. -/
theorem C6_engine_success_outcomes (engine : Engine) (fs : FS) (cache : Registry)
    (code language : String) (rules? : Option (List RuleDict))
    (edges? : Option (List EdgeDict)) (flag_name? : Option String)
    (rules : List RuleDict) (edges : List EdgeDict) (cache2 : Registry)
    (hres : resolveRules fs cache code language rules? edges? flag_name? =
      .run rules (some edges) cache2) :
    (engine code language (rules.map normalizeRule) (edges.map normalizeEdge) = .ok [] →
      apply_rewrite engine fs cache code language rules? edges? flag_name? =
        ({ transformed_code := some code,
           message := some "No transformations applied",
           debug := some ("Generated " ++ Nat.repr rules.length ++ " rules") }, cache2)) ∧
    (∀ s rest,
      engine code language (rules.map normalizeRule) (edges.map normalizeEdge) = .ok (s :: rest) →
      apply_rewrite engine fs cache code language rules? edges? flag_name? =
        ({ transformed_code := some s }, cache2)) := by
  constructor
  · intro heng
    unfold apply_rewrite
    rw [hres]
    unfold runEngine
    dsimp only
    rw [heng]
  · intro s rest heng
    unfold apply_rewrite
    rw [hres]
    unfold runEngine
    dsimp only
    rw [heng]

/-- Witness for C6 with an engine that always succeeds with zero
summaries, called with an explicit empty rule set. -/
theorem C6_witness :
    apply_rewrite (fun _ _ _ _ => .ok []) ⟨none, none, none⟩ initialFlagsCache
        "snippet" "go" (some []) (some []) none =
      ({ transformed_code := some "snippet",
         message := some "No transformations applied",
         debug := some "Generated 0 rules" }, initialFlagsCache) :=
  (C6_engine_success_outcomes (fun _ _ _ _ => .ok []) ⟨none, none, none⟩
    initialFlagsCache "snippet" "go" (some []) (some []) none [] []
    initialFlagsCache rfl).1 rfl

/-- Claim C7: every return value of `apply_rewrite` has a
`transformed_code` key; whenever an `error` key is present the transformed
code is the original snippet; and when the engine raises, a message
containing the tree-sitter query-syntax marker yields a remediation
`suggestion` while any other exception yields the generic failure with no
suggestion. -/
theorem C7_response_shape (engine : Engine) (fs : FS) (cache : Registry)
    (code language : String) (rules? : Option (List RuleDict))
    (edges? : Option (List EdgeDict)) (flag_name? : Option String) :
    ((apply_rewrite engine fs cache code language rules? edges? flag_name?).1.transformed_code.isSome = true) ∧
    ((apply_rewrite engine fs cache code language rules? edges? flag_name?).1.error.isSome = true →
      (apply_rewrite engine fs cache code language rules? edges? flag_name?).1.transformed_code = some code) ∧
    (∀ rules edges cache2 msg,
      resolveRules fs cache code language rules? edges? flag_name? = .run rules (some edges) cache2 →
      engine code language (rules.map normalizeRule) (edges.map normalizeEdge) = .err msg →
      ((pyContainsSub msg "Cannot parse the tree-sitter query" = true →
        (apply_rewrite engine fs cache code language rules? edges? flag_name?).1.suggestion.isSome = true) ∧
       (pyContainsSub msg "Cannot parse the tree-sitter query" = false →
        (apply_rewrite engine fs cache code language rules? edges? flag_name?).1.suggestion = none ∧
        (apply_rewrite engine fs cache code language rules? edges? flag_name?).1.error =
          some ("Piranha execution failed: " ++ msg)))) := by
  cases hres : resolveRules fs cache code language rules? edges? flag_name? with
  | early resp cache2 =>
    have hcode := (resolveRules_early_shape fs cache code language rules? edges? flag_name?
      resp cache2 hres).1
    have happ : apply_rewrite engine fs cache code language rules? edges? flag_name? =
        (resp, cache2) := by
      unfold apply_rewrite
      rw [hres]
    refine ⟨?_, ?_, ?_⟩
    · rw [happ, hcode]
      rfl
    · intro _
      rw [happ, hcode]
    · intro rules edges c2 msg hrun
      simp at hrun
  | run rules edgesO cache2 =>
    cases edgesO with
    | none =>
      have happ : apply_rewrite engine fs cache code language rules? edges? flag_name? =
          (handleEngineError code noneIterableMsg, cache2) := by
        unfold apply_rewrite
        rw [hres]
      refine ⟨?_, ?_, ?_⟩
      · rw [happ, handleEngineError_code]
        rfl
      · intro _
        rw [happ]
        exact handleEngineError_code code noneIterableMsg
      · intro rules' edges' c2 msg hrun
        simp at hrun
    | some edges =>
      have happ : apply_rewrite engine fs cache code language rules? edges? flag_name? =
          (runEngine engine code language rules edges, cache2) := by
        unfold apply_rewrite
        rw [hres]
      cases heng : engine code language (rules.map normalizeRule) (edges.map normalizeEdge) with
      | ok summaries =>
        cases summaries with
        | nil =>
          have hrun : runEngine engine code language rules edges =
              { transformed_code := some code,
                message := some "No transformations applied",
                debug := some ("Generated " ++ Nat.repr rules.length ++ " rules") } := by
            unfold runEngine
            dsimp only
            rw [heng]
          refine ⟨?_, ?_, ?_⟩
          · rw [happ, hrun]
            rfl
          · intro herr
            rw [happ, hrun] at herr
            simp at herr
          · intro rules' edges' c2 msg hrun' heng'
            injection hrun' with e1 e2 e3
            subst e1
            injection e2 with e2'
            subst e2'
            rw [heng] at heng'
            simp at heng'
        | cons s rest =>
          have hrun : runEngine engine code language rules edges =
              { transformed_code := some s } := by
            unfold runEngine
            dsimp only
            rw [heng]
          refine ⟨?_, ?_, ?_⟩
          · rw [happ, hrun]
            rfl
          · intro herr
            rw [happ, hrun] at herr
            simp at herr
          · intro rules' edges' c2 msg hrun' heng'
            injection hrun' with e1 e2 e3
            subst e1
            injection e2 with e2'
            subst e2'
            rw [heng] at heng'
            simp at heng'
      | err msg0 =>
        have hrun : runEngine engine code language rules edges = handleEngineError code msg0 := by
          unfold runEngine
          dsimp only
          rw [heng]
        refine ⟨?_, ?_, ?_⟩
        · rw [happ, hrun, handleEngineError_code]
          rfl
        · intro _
          rw [happ, hrun]
          exact handleEngineError_code code msg0
        · intro rules' edges' c2 msg hrun' heng'
          injection hrun' with e1 e2 e3
          subst e1
          injection e2 with e2'
          subst e2'
          rw [heng] at heng'
          injection heng' with emsg
          subst emsg
          constructor
          · intro hmark
            rw [happ, hrun]
            exact handleEngineError_marker_hit code msg0 hmark
          · intro hmark
            rw [happ, hrun]
            exact handleEngineError_generic code msg0 hmark

/-- Witness for C7 with an engine that raises a non-syntax exception on a
call that reaches it, plus the error-implies-original-snippet conjunct at
the same call. -/
theorem C7_witness :
    ((apply_rewrite (fun _ _ _ _ => .err "boom") ⟨none, none, none⟩ initialFlagsCache
        "abc" "go" (some []) (some []) none).1.suggestion = none ∧
      (apply_rewrite (fun _ _ _ _ => .err "boom") ⟨none, none, none⟩ initialFlagsCache
        "abc" "go" (some []) (some []) none).1.error =
          some ("Piranha execution failed: " ++ "boom")) ∧
    (apply_rewrite (fun _ _ _ _ => .err "boom") ⟨none, none, none⟩ initialFlagsCache
        "abc" "go" (some []) (some []) none).1.transformed_code = some "abc" :=
  ⟨((C7_response_shape (fun _ _ _ _ => .err "boom") ⟨none, none, none⟩ initialFlagsCache
      "abc" "go" (some []) (some []) none).2.2 [] [] initialFlagsCache "boom"
      rfl rfl).2 (by decide),
    (C7_response_shape (fun _ _ _ _ => .err "boom") ⟨none, none, none⟩ initialFlagsCache
      "abc" "go" (some []) (some []) none).2.1 (by decide)⟩

/-- Claim C8: a successful config load wholesale replaces the registry
cache — via `list_flags` and via the on-demand load inside
`apply_rewrite` alike the new cache is exactly the parse result,
independent of the previous cache, and a flag absent from the parsed
config is absent from the new cache no matter what the old cache held. -/
theorem C8_cache_wholesale (old : Registry) (content working_directory : String)
    (engine : Engine) (fs : FS) (code language : String)
    (rules? : Option (List RuleDict)) (edges? : Option (List EdgeDict))
    (flag : String) :
    ((list_flags (some content) working_directory old).2 =
      ⟨(parse_flags_md content).flags, (parse_flags_md content).global_patterns⟩) ∧
    (flag.isEmpty = false → lookupFlag flag old.flags = none → fs.probe = some content →
      (apply_rewrite engine fs old code language rules? edges? (some flag)).2 =
        ⟨(parse_flags_md content).flags, (parse_flags_md content).global_patterns⟩) ∧
    (∀ name, lookupFlag name (parse_flags_md content).flags = none →
      lookupFlag name (list_flags (some content) working_directory old).2.flags = none) := by
  refine ⟨rfl, ?_, ?_⟩
  · intro hne hlook hprobe
    unfold apply_rewrite resolveRules
    dsimp only
    rw [if_neg (by rw [hne]; simp : ¬ flag.isEmpty = true), hlook, hprobe]
    dsimp only
    cases lookupFlag flag (parse_flags_md content).flags <;> rfl
  · intro name hname
    exact hname

/-- Witness for C8: loading a one-flag config over a cache that held a
different flag leaves only the new flag; the on-demand load inside
`apply_rewrite` installs the same registry; the old flag is gone. -/
theorem C8_witness :
    ((list_flags (some "## Flags\nnew:true") "/w"
        ⟨[("old_flag", ⟨"true", "", some "true", true⟩)], ["g"]⟩).2 =
      ⟨(parse_flags_md "## Flags\nnew:true").flags,
        (parse_flags_md "## Flags\nnew:true").global_patterns⟩) ∧
    ((apply_rewrite (fun _ _ _ _ => .ok []) ⟨some "## Flags\nnew:true", none, none⟩
        ⟨[("old_flag", ⟨"true", "", some "true", true⟩)], ["g"]⟩
        "c" "go" none none (some "new")).2 =
      ⟨(parse_flags_md "## Flags\nnew:true").flags,
        (parse_flags_md "## Flags\nnew:true").global_patterns⟩) ∧
    lookupFlag "old_flag"
      (list_flags (some "## Flags\nnew:true") "/w"
        ⟨[("old_flag", ⟨"true", "", some "true", true⟩)], ["g"]⟩).2.flags = none :=
  ⟨(C8_cache_wholesale ⟨[("old_flag", ⟨"true", "", some "true", true⟩)], ["g"]⟩
      "## Flags\nnew:true" "/w" (fun _ _ _ _ => .ok [])
      ⟨some "## Flags\nnew:true", none, none⟩ "c" "go" none none "new").1,
    (C8_cache_wholesale ⟨[("old_flag", ⟨"true", "", some "true", true⟩)], ["g"]⟩
      "## Flags\nnew:true" "/w" (fun _ _ _ _ => .ok [])
      ⟨some "## Flags\nnew:true", none, none⟩ "c" "go" none none "new").2.1
      (by decide) (by decide) rfl,
    (C8_cache_wholesale ⟨[("old_flag", ⟨"true", "", some "true", true⟩)], ["g"]⟩
      "## Flags\nnew:true" "/w" (fun _ _ _ _ => .ok [])
      ⟨some "## Flags\nnew:true", none, none⟩ "c" "go" none none "new").2.2
      "old_flag" (by decide)⟩

/-- Claim C9: on a cache hit the caller-supplied `rules` and `edges`
arguments are discarded in favor of the synthesized seed rules with no
edges, so any two calls differing only in those arguments return
identical results. -/
theorem C9_supplied_rules_ignored (engine : Engine) (fs : FS) (cache : Registry)
    (code language flag : String) (fi : FlagRecord)
    (hne : flag.isEmpty = false) (hlook : lookupFlag flag cache.flags = some fi)
    (r1 r2 : Option (List RuleDict)) (e1 e2 : Option (List EdgeDict)) :
    apply_rewrite engine fs cache code language r1 e1 (some flag) =
      apply_rewrite engine fs cache code language r2 e2 (some flag) := by
  unfold apply_rewrite resolveRules
  dsimp only
  rw [if_neg (by rw [hne]; simp : ¬ flag.isEmpty = true),
    if_neg (by rw [hne]; simp : ¬ flag.isEmpty = true), hlook]

/-- Witness for C9: junk rules and edges supplied alongside a cached flag
name produce the same response as supplying none at all. -/
theorem C9_witness :
    apply_rewrite (fun _ _ rs _ => .ok [String.intercalate "|" (rs.map Rule.name)])
        ⟨none, none, none⟩ ⟨[("beta", ⟨"true", "", some "true", true⟩)], ["g"]⟩
        "c" "go" (some [⟨some "junk", some "cs junk", some true, none, some "junk"⟩])
        (some [⟨some "a", some "b", some "parent"⟩]) (some "beta") =
      apply_rewrite (fun _ _ rs _ => .ok [String.intercalate "|" (rs.map Rule.name)])
        ⟨none, none, none⟩ ⟨[("beta", ⟨"true", "", some "true", true⟩)], ["g"]⟩
        "c" "go" none none (some "beta") :=
  C9_supplied_rules_ignored (fun _ _ rs _ => .ok [String.intercalate "|" (rs.map Rule.name)])
    ⟨none, none, none⟩ ⟨[("beta", ⟨"true", "", some "true", true⟩)], ["g"]⟩
    "c" "go" "beta" ⟨"true", "", some "true", true⟩ (by decide) (by decide)
    (some [⟨some "junk", some "cs junk", some true, none, some "junk"⟩]) none
    (some [⟨some "a", some "b", some "parent"⟩]) none

/-- Claim C1 (refuted — code bug): with an empty cache, a discoverable
config file whose registry contains the requested flag, and an engine that
would return a transformed snippet, the load branch of `apply_rewrite`
returns the ORIGINAL snippet with a `debug` note and never submits the
freshly synthesized rules to the engine; the cache-hit path on the very
registry that load installed does submit them and returns the engine's
result.  The two outcomes differ, refuting the claimed equivalence. -/
theorem C1_load_path_skips_engine :
    ((apply_rewrite (fun _ _ _ _ => .ok ["ENGINE_RESULT"])
        ⟨some "## Functions\nisFeatureEnabled\n## Flags\nbeta:true", none, none⟩
        initialFlagsCache "original" "go" none none (some "beta")).1 =
      { transformed_code := some "original",
        debug := some "Loaded flag beta, generated 4 rules" }) ∧
    ((apply_rewrite (fun _ _ _ _ => .ok ["ENGINE_RESULT"])
        ⟨some "## Functions\nisFeatureEnabled\n## Flags\nbeta:true", none, none⟩
        (apply_rewrite (fun _ _ _ _ => .ok ["ENGINE_RESULT"])
          ⟨some "## Functions\nisFeatureEnabled\n## Flags\nbeta:true", none, none⟩
          initialFlagsCache "original" "go" none none (some "beta")).2
        "original" "go" none none (some "beta")).1 =
      { transformed_code := some "ENGINE_RESULT" }) := by
  constructor
  · decide
  · decide

end PiranhaMCP
